import Mathlib

/-!
Verification of the n8n-k8s-version-manager backend.

Shallow embedding of the algorithmic core of the repository:
* `src/api/deployment_phase.py` — deployment phase inference engine;
* `src/api/available_versions.py` — incremental version cache refresh;
* `src/api/k8s.py` (`parse_k8s_memory`) and `src/api/cluster.py` — memory
  parsing and cluster resource estimation.

Python dictionaries are embedded as structures; `dict.get` defaults are
folded into the field types (a key that is always read with a default,
such as a missing `phase`, behaves like any string different from the
compared literals, so a plain `String` field is adequate for the claims).
Fallible code is embedded with `Option`: a `none` result models an
uncaught Python exception.
-/

namespace N8nMgr

/-! ### String primitives

Python string operations, embedded over the character sequence of the
string so that every definition reduces inside the kernel. -/

/-- Python `str.startswith`. -/
def strStartsWith (s pre : String) : Bool :=
  pre.data.isPrefixOf s.data

/-- Python `str.endswith`. -/
def strEndsWith (s suf : String) : Bool :=
  suf.data.isSuffixOf s.data

/-- Python falsiness of a string: emptiness. -/
def strIsEmpty (s : String) : Bool :=
  s.data.isEmpty

/-- Drop the last `n` characters. -/
def strDropRight (s : String) (n : Nat) : String :=
  ⟨s.data.take (s.data.length - n)⟩

/-- Split a character sequence at every occurrence of `sep`. -/
def splitOnChar (sep : Char) : List Char → List (List Char)
  | [] => [[]]
  | c :: cs =>
    if c == sep then [] :: splitOnChar sep cs
    else
      match splitOnChar sep cs with
      | h :: t => (c :: h) :: t
      | [] => [[c]]

/-- Value of a sequence of decimal digits (0 for the empty sequence). -/
def digitsVal (l : List Char) : Nat :=
  l.foldl (fun n c => n * 10 + (c.toNat - 48)) 0

/-! ### Pod observations (`src/api/deployment_phase.py`) -/

/-- A container status observation, as consumed by the phase engine:
`ready`, optional `state_detail` (waiting/terminated reason) and the
restart counter. -/
structure ContainerObs where
  name : String
  ready : Bool
  state_detail : Option String
  restart_count : Nat
deriving DecidableEq, Repr

/-- A pod observation: name, raw phase string and container statuses. -/
structure PodObs where
  name : String
  phase : String
  containers : List ContainerObs
deriving DecidableEq, Repr

/-- `is_pod_running`: phase is `Running`, at least one container, and all
containers ready. -/
def is_pod_running (p : PodObs) : Bool :=
  p.phase == "Running" && !p.containers.isEmpty && p.containers.all (·.ready)

/-- The problematic container states checked by `is_pod_failed`. -/
def badContainerStates : List String :=
  ["CrashLoopBackOff", "ErrImagePull", "ImagePullBackOff", "Error"]

/-- `is_pod_failed`: phase `Failed`, or some container in a problematic
state, or some container restarted more than 5 times. -/
def is_pod_failed (p : PodObs) : Bool :=
  p.phase == "Failed" ||
    p.containers.any (fun c =>
      (match c.state_detail with
       | some s => badContainerStates.contains s
       | none => false) || c.restart_count > 5)

/-- `get_failure_reason`: first container with a truthy (non-empty)
`state_detail` gives `"name: detail"`, otherwise the pod's phase. -/
def get_failure_reason (p : PodObs) : String :=
  match p.containers.find? (fun c =>
      match c.state_detail with
      | some s => !strIsEmpty s
      | none => false) with
  | some c =>
    match c.state_detail with
    | some s => c.name ++ ": " ++ s
    | none => p.phase
  | none => p.phase

/-- `_get_pod_progress`: human readable progress message for a pod group. -/
def get_pod_progress (pods : List PodObs) (pod_type : String) : String :=
  match pods with
  | [] => "Waiting for " ++ pod_type ++ " pod..."
  | pod :: _ =>
    if pod.phase == "Pending" then
      match pod.containers.find? (fun c =>
          c.state_detail == some "ContainerCreating"
            || c.state_detail == some "PodInitializing") with
      | some c =>
        if c.state_detail == some "ContainerCreating" then "Creating container..."
        else "Initializing..."
      | none => "Pod pending..."
    else if pod.phase == "Running" then
      let ready := (pod.containers.filter (·.ready)).length
      let total := pod.containers.length
      if ready < total then
        "Containers: " ++ toString ready ++ "/" ++ toString total ++ " ready"
      else "Starting..."
    else "Status: " ++ pod.phase

/-- Output of `calculate_phase` (the returned dictionary). -/
structure PhaseResult where
  phase : String
  label : String
  message : Option String
  failed_pod : Option String
  reason : Option String
  pods_ready : Option Nat
  pods_total : Option Nat
deriving DecidableEq, Repr

/-- Pods whose name starts with `postgres-`. -/
def postgresPods (pods : List PodObs) : List PodObs :=
  pods.filter (fun p => strStartsWith p.name "postgres-")

/-- Pods whose name starts with `n8n-main`. -/
def mainPods (pods : List PodObs) : List PodObs :=
  pods.filter (fun p => strStartsWith p.name "n8n-main")

/-- Pods whose name starts with `n8n-worker`. -/
def workerPods (pods : List PodObs) : List PodObs :=
  pods.filter (fun p => strStartsWith p.name "n8n-worker")

/-- Pods whose name starts with `n8n-webhook`. -/
def webhookPods (pods : List PodObs) : List PodObs :=
  pods.filter (fun p => strStartsWith p.name "n8n-webhook")

/-- `all_pods`, the tracked union used for failure checking: database,
main, worker and webhook pods, concatenated in that category order. -/
def trackedPods (pods : List PodObs) : List PodObs :=
  postgresPods pods ++ mainPods pods ++ workerPods pods ++ webhookPods pods

/-- `calculate_phase` from `src/api/deployment_phase.py`. -/
def calculate_phase (pods : List PodObs) (is_queue_mode : Bool) : PhaseResult :=
  if pods.isEmpty then
    { phase := "db-starting", label := "DB starting",
      message := some "Waiting for pods...", failed_pod := none, reason := none,
      pods_ready := none, pods_total := none }
  else
    match (trackedPods pods).filter is_pod_failed with
    | fp :: _ =>
      { phase := "failed", label := "Failed", message := none,
        failed_pod := some fp.name, reason := some (get_failure_reason fp),
        pods_ready := none, pods_total := none }
    | [] =>
      if !(postgresPods pods).any is_pod_running then
        { phase := "db-starting", label := "DB starting",
          message := some (get_pod_progress (postgresPods pods) "postgres"),
          failed_pod := none, reason := none, pods_ready := none, pods_total := none }
      else if !(mainPods pods).any is_pod_running then
        { phase := "n8n-starting", label := "n8n starting",
          message := some (get_pod_progress (mainPods pods) "n8n-main"),
          failed_pod := none, reason := none, pods_ready := none, pods_total := none }
      else if is_queue_mode
          && !((!(workerPods pods).isEmpty && (workerPods pods).all is_pod_running)
               && (webhookPods pods).any is_pod_running) then
        { phase := "workers-starting", label := "Workers",
          message := some ("Workers: "
            ++ toString ((workerPods pods).filter is_pod_running).length ++ "/"
            ++ toString (workerPods pods).length ++ ", Webhook: "
            ++ (if (webhookPods pods).any is_pod_running then "ready" else "starting")),
          failed_pod := none, reason := none, pods_ready := none, pods_total := none }
      else
        { phase := "running", label := "Running", message := none,
          failed_pod := none, reason := none,
          pods_ready := some ((trackedPods pods).filter is_pod_running).length,
          pods_total := some (trackedPods pods).length }

/-! ### Incremental version cache (`src/api/available_versions.py`)

The in-memory cache `_cache` is embedded as a `VersionCache` value and the
refresh endpoint `get_available_versions` as a state transformer over it.
File persistence (`load_cache_from_file` / `save_cache_to_file`) is an IO
side channel that never changes the refresh result and is omitted.
Timestamps are seconds since an arbitrary epoch.  The outcome of the single
upstream HTTP request of a refresh is an explicit `FetchOutcome` argument:
`raised` models a transport exception from `requests.get` (caught by the
`try` in `get_available_versions`), `httpError` a non-200 response (which
`fetch_page` turns into the empty version list), and `ok vs` a 200 response
whose body extracts to the version list `vs` (draft filtering and
`extract_version` normalisation happen upstream of the lists the claims
quantify over, so pages are modelled post-extraction). -/

/-- The version cache record `{versions, last_check, newest}`. -/
structure VersionCache where
  versions : List String
  last_check : Option Nat
  newest : Option String
deriving DecidableEq, Repr

/-- `CACHE_TTL_HOURS = 6`. -/
def CACHE_TTL_HOURS : Nat := 6

/-- The freshness test `now - last_check < timedelta(hours=6)`.  With a
`none` last check the Python conjunction is falsy and the cache is stale. -/
def cacheFresh (c : VersionCache) (now : Nat) : Bool :=
  match c.last_check with
  | some lc => now - lc < CACHE_TTL_HOURS * 3600
  | none => false

/-- Outcome of the upstream HTTP fetch of one refresh. -/
inductive FetchOutcome where
  | raised
  | httpError
  | ok (versions : List String)
deriving DecidableEq, Repr

/-- `fetch_page`, restricted to its version-list component: a non-200
status yields `[]`, a transport exception propagates (`none`). -/
def fetch_page (o : FetchOutcome) : Option (List String) :=
  match o with
  | .raised => none
  | .httpError => some []
  | .ok vs => some vs

/-- `fetch_new_releases`: collect page-1 versions up to (excluding) the
first occurrence of `known_newest`. -/
def fetch_new_releases (known_newest : String) (o : FetchOutcome) : Option (List String) :=
  (fetch_page o).map (fun versions => versions.takeWhile (fun v => v != known_newest))

/-- `fetch_all_releases` (cold start): walks all pages; modelled with the
whole feed on one page, so it coincides with `fetch_page`. -/
def fetch_all_releases (o : FetchOutcome) : Option (List String) :=
  fetch_page o

/-- Python truthiness of the optional `newest` string. -/
def newestTruthy (c : VersionCache) : Bool :=
  match c.newest with
  | some s => !strIsEmpty s
  | none => false

/-- The warm (incremental) branch of the refresh: prepend the new
versions, move `newest` to the first new entry, advance `last_check`.
A `none` fetch is the caught exception: the cache is left untouched. -/
def refreshWarm (c : VersionCache) (now : Nat) (known_newest : String)
    (o : FetchOutcome) : VersionCache :=
  match fetch_new_releases known_newest o with
  | none => c
  | some new_versions =>
    match new_versions with
    | [] => { versions := c.versions, last_check := some now, newest := c.newest }
    | v :: vs =>
      { versions := (v :: vs) ++ c.versions, last_check := some now, newest := some v }

/-- The cold-start branch of the refresh: replace the whole cache with the
fetched feed.  A `none` fetch is the caught exception. -/
def refreshCold (c : VersionCache) (now : Nat) (o : FetchOutcome) : VersionCache :=
  match fetch_all_releases o with
  | none => c
  | some vs => { versions := vs, last_check := some now, newest := vs.head? }

/-- `get_available_versions`: returns the updated cache and the response
body (the `versions` list that the endpoint serves). -/
def get_available_versions (c : VersionCache) (now : Nat) (o : FetchOutcome) :
    VersionCache × List String :=
  if cacheFresh c now then (c, c.versions)
  else
    let c' :=
      if !c.versions.isEmpty && newestTruthy c then
        refreshWarm c now (c.newest.getD "") o
      else
        refreshCold c now o
    (c', c'.versions)

/-- The VersionCache invariant stated by the specification: the head of
`versions` is `newest` whenever non-empty, and `versions` has no
duplicate entries. -/
def cacheInv (c : VersionCache) : Prop :=
  (c.versions ≠ [] → c.newest = c.versions.head?) ∧ c.versions.Nodup

instance (c : VersionCache) : Decidable (cacheInv c) := by
  unfold cacheInv; infer_instance

/-! ### Memory parsing (`src/api/k8s.py`) and resources (`src/api/cluster.py`) -/

/-- The suffix table of `parse_k8s_memory`, in Python dict insertion
order (binary suffixes first, so `Mi` is matched before `M`). -/
def multipliers : List (String × Nat) :=
  [("Ki", 1024), ("Mi", 1024 ^ 2), ("Gi", 1024 ^ 3), ("Ti", 1024 ^ 4),
   ("K", 1000), ("M", 1000 ^ 2), ("G", 1000 ^ 3), ("T", 1000 ^ 4)]

/-- All characters are decimal digits. -/
def isDigits (s : String) : Bool :=
  s.data.all (·.isDigit)

/-- Python `float(s)` restricted to unsigned decimal literals, which is
the shape of every Kubernetes quantity prefix: returns the mantissa and
the number of fractional digits, so the represented value is
`mantissa / 10 ^ scale` (exact — the source's float rounding is not
reached by any in-range quantity the claims use).  Signs, exponents and
special values are outside the model; on every other string `float`
raises, which is `none` here. -/
def parseDecimal (s : String) : Option (Nat × Nat) :=
  match splitOnChar '.' s.data with
  | [a] => if !a.isEmpty && a.all (·.isDigit) then some (digitsVal a, 0) else none
  | [a, b] =>
    if (!a.isEmpty || !b.isEmpty) && a.all (·.isDigit) && b.all (·.isDigit) then
      some (digitsVal a * 10 ^ b.length + digitsVal b, b.length)
    else none
  | _ => none

/-- `parse_k8s_memory`: quantity string to bytes.  `none` models an
uncaught exception: the source wraps only the suffix-less `int(mem_str)`
fallback in `try/except ValueError`, not the `float(...)` call of the
suffix branch.  `int(float * mult)` truncates; on the non-negative values
of this model that is `mantissa * mult / 10 ^ scale` in `Nat`. -/
def parse_k8s_memory (mem_str : String) : Option Int :=
  if strIsEmpty mem_str then some 0
  else
    match multipliers.find? (fun sm => strEndsWith mem_str sm.1) with
    | some sm =>
      match parseDecimal (strDropRight mem_str sm.1.data.length) with
      | some ms => some ((ms.1 * sm.2 / 10 ^ ms.2 : Nat) : Int)
      | none => none
    | none =>
      if isDigits mem_str then some ((digitsVal mem_str.data : Nat) : Int)
      else some 0

/-- `QUEUE_MODE_MEMORY` (Mi). -/
def QUEUE_MODE_MEMORY : Nat := 1792

/-- `REGULAR_MODE_MEMORY` (Mi). -/
def REGULAR_MODE_MEMORY : Nat := 512

/-- The `memory` object of the `/api/cluster/resources` response. -/
structure MemoryInfo where
  allocatable_mi : Nat
  used_mi : Nat
  available_mi : Int
  utilization_percent : Nat
deriving DecidableEq, Repr

/-- The `can_deploy` object of the `/api/cluster/resources` response. -/
structure CanDeploy where
  queue_mode : Bool
  regular_mode : Bool
deriving DecidableEq, Repr

/-- `int((used_mi / allocatable_mi * 100) if allocatable_mi > 0 else 0)`:
float division then truncation, embedded as the rational floor (the
operand is non-negative, so `int` truncation is the floor). -/
def utilization_percent (allocatable_mi used_mi : Nat) : Nat :=
  if 0 < allocatable_mi then ⌊(used_mi : ℚ) / (allocatable_mi : ℚ) * 100⌋₊
  else 0

/-- The memory/feasibility part of `get_cluster_resources`, from the
total allocatable and total used byte counts. -/
def cluster_resources (total_memory used_memory : Nat) : MemoryInfo × CanDeploy :=
  let allocatable_mi := total_memory / (1024 * 1024)
  let used_mi := used_memory / (1024 * 1024)
  let available_mi : Int := (allocatable_mi : Int) - (used_mi : Int)
  ({ allocatable_mi := allocatable_mi, used_mi := used_mi,
     available_mi := available_mi,
     utilization_percent := utilization_percent allocatable_mi used_mi },
   { queue_mode := decide (available_mi ≥ (QUEUE_MODE_MEMORY : Int)),
     regular_mode := decide (available_mi ≥ (REGULAR_MODE_MEMORY : Int)) })

/-- Rounding to the nearest integer, as the specification's words
`round(used/allocatable*100)` read (floor of the value plus one half);
stated only to be compared against the implementation's truncation. -/
def round_percent_spec (allocatable_mi used_mi : Nat) : Nat :=
  if 0 < allocatable_mi then
    ⌊(used_mi : ℚ) / (allocatable_mi : ℚ) * 100 + 1 / 2⌋₊
  else 0

/-! ### Concrete pod observations used in the theorems below -/

/-- Database pod whose container is being created. -/
def pgPendingPod : PodObs :=
  ⟨"postgres-test-0", "Pending", [⟨"postgres", false, some "ContainerCreating", 0⟩]⟩

/-- Database pod whose container runs but is not yet ready. -/
def pgStartingPod : PodObs :=
  ⟨"postgres-test-0", "Running", [⟨"postgres", false, none, 0⟩]⟩

/-- Ready-running database pod. -/
def pgReadyPod : PodObs :=
  ⟨"postgres-test-0", "Running", [⟨"postgres", true, none, 0⟩]⟩

/-- Main pod still pending. -/
def mainPendingPod : PodObs :=
  ⟨"n8n-main-0", "Pending", [⟨"n8n", false, none, 0⟩]⟩

/-- Main pod running but not yet ready. -/
def mainStartingPod : PodObs :=
  ⟨"n8n-main-0", "Running", [⟨"n8n", false, none, 0⟩]⟩

/-- Ready-running main pod. -/
def mainReadyPod : PodObs :=
  ⟨"n8n-main-0", "Running", [⟨"n8n", true, none, 0⟩]⟩

/-- Worker pod still pending. -/
def workerPendingPod : PodObs :=
  ⟨"n8n-worker-7d9f", "Pending", [⟨"n8n-worker", false, none, 0⟩]⟩

/-- Ready-running worker pod. -/
def workerReadyPod : PodObs :=
  ⟨"n8n-worker-7d9f", "Running", [⟨"n8n-worker", true, none, 0⟩]⟩

/-- Webhook pod still pending. -/
def webhookPendingPod : PodObs :=
  ⟨"n8n-webhook-5c2a", "Pending", [⟨"n8n-webhook", false, none, 0⟩]⟩

/-- Ready-running webhook pod. -/
def webhookReadyPod : PodObs :=
  ⟨"n8n-webhook-5c2a", "Running", [⟨"n8n-webhook", true, none, 0⟩]⟩

/-- A main pod observed in phase `Failed`. -/
def mainFailedPod : PodObs := ⟨"n8n-main-0", "Failed", []⟩

/-- A database pod observed in phase `Failed`. -/
def pgFailedPod : PodObs := ⟨"postgres-test-0", "Failed", []⟩

/-- The simulated queue-mode startup: db pending, db started but not
ready, then main pending, main started but not ready, then workers and
webhook pending, then everything ready. -/
def startupSnapshots : List (List PodObs) :=
  [[pgPendingPod],
   [pgStartingPod],
   [pgReadyPod, mainPendingPod],
   [pgReadyPod, mainStartingPod],
   [pgReadyPod, mainReadyPod, workerPendingPod, webhookPendingPod],
   [pgReadyPod, mainReadyPod, workerReadyPod, webhookReadyPod]]

/-! ### Phase engine theorems -/

/-- A member of the tracked union is a member of the input list. -/
theorem mem_of_mem_trackedPods {p : PodObs} {pods : List PodObs}
    (h : p ∈ trackedPods pods) : p ∈ pods := by
  unfold trackedPods postgresPods mainPods workerPods webhookPods at h
  simp only [List.mem_append, List.mem_filter] at h
  rcases h with ((⟨h, _⟩ | ⟨h, _⟩) | ⟨h, _⟩) | ⟨h, _⟩ <;> exact h

/-- C1 (counterexample).  Both pods are failed; in input order the first
failed pod is the main pod `n8n-main-0`, but `calculate_phase` reports
the database pod, because the union is rebuilt in category order
(database pods first) before the first failed pod is selected. -/
theorem calculate_phase_failed_input_order_cex :
    is_pod_failed mainFailedPod = true
  ∧ ([mainFailedPod, pgFailedPod].filter is_pod_failed).head?.map PodObs.name
      = some "n8n-main-0"
  ∧ (calculate_phase [mainFailedPod, pgFailedPod] true).failed_pod
      = some "postgres-test-0"
  ∧ some "postgres-test-0" ≠ some "n8n-main-0" := by decide

/-- C1 (amended).  If some pod of the tracked union is failed, the phase
is `failed` and `failed_pod` is the name of the first failed pod in the
categorized union order (database, then main, worker, webhook pods, each
group preserving input order). -/
theorem calculate_phase_failed_precedence (pods : List PodObs) (q : Bool)
    (h : ∃ p ∈ trackedPods pods, is_pod_failed p = true) :
    (calculate_phase pods q).phase = "failed"
  ∧ (calculate_phase pods q).failed_pod
      = ((trackedPods pods).filter is_pod_failed).head?.map PodObs.name := by
  obtain ⟨p, hp, hfail⟩ := h
  have hpods : pods.isEmpty = false := by
    cases pods with
    | nil => cases mem_of_mem_trackedPods hp
    | cons a l => rfl
  have hmem : p ∈ (trackedPods pods).filter is_pod_failed :=
    List.mem_filter.mpr ⟨hp, hfail⟩
  cases hfp : (trackedPods pods).filter is_pod_failed with
  | nil => rw [hfp] at hmem; cases hmem
  | cons fp rest =>
    unfold calculate_phase
    simp [hpods, hfp]

/-- C1 (witness for the amended theorem). -/
theorem calculate_phase_failed_precedence_witness :
    (calculate_phase [pgFailedPod] true).phase = "failed"
  ∧ (calculate_phase [pgFailedPod] true).failed_pod
      = ((trackedPods [pgFailedPod]).filter is_pod_failed).head?.map PodObs.name :=
  calculate_phase_failed_precedence [pgFailedPod] true
    ⟨pgFailedPod, by decide, by decide⟩

/-- C5.  If no pod of the tracked union is failed and no database pod is
ready-running, the phase is `db-starting` (also on the empty pod list). -/
theorem calculate_phase_db_starting (pods : List PodObs) (q : Bool)
    (hfail : ∀ p ∈ trackedPods pods, is_pod_failed p = false)
    (hdb : ∀ p ∈ postgresPods pods, is_pod_running p = false) :
    (calculate_phase pods q).phase = "db-starting" := by
  by_cases hpods : pods.isEmpty = true
  · unfold calculate_phase
    rw [if_pos hpods]
  · have hfilter : (trackedPods pods).filter is_pod_failed = [] :=
      List.filter_eq_nil_iff.mpr (fun p hp => by simp [hfail p hp])
    have hany : (postgresPods pods).any is_pod_running = false :=
      List.any_eq_false.mpr (fun p hp => by simp [hdb p hp])
    unfold calculate_phase
    rw [if_neg hpods, hfilter]
    simp only [hany, Bool.not_false, if_pos]

/-- C5 (witness). -/
theorem calculate_phase_db_starting_witness :
    (calculate_phase [pgPendingPod] false).phase = "db-starting" :=
  calculate_phase_db_starting [pgPendingPod] false (by decide) (by decide)

/-- C6.  Feeding the simulated queue-mode startup snapshots through
`calculate_phase` yields exactly the phase sequence `db-starting,
db-starting, n8n-starting, n8n-starting, workers-starting, running`. -/
theorem calculate_phase_startup_sequence :
    startupSnapshots.map (fun s => (calculate_phase s true).phase)
      = ["db-starting", "db-starting", "n8n-starting", "n8n-starting",
         "workers-starting", "running"] := by decide

/-- C10.  The phase returned by `calculate_phase` is always one of the
five values `db-starting`, `n8n-starting`, `workers-starting`, `running`,
`failed`; the declared `unknown` value is never produced. -/
theorem calculate_phase_range (pods : List PodObs) (q : Bool) :
    (calculate_phase pods q).phase
      ∈ ["db-starting", "n8n-starting", "workers-starting", "running", "failed"] := by
  unfold calculate_phase
  repeat' split
  all_goals simp

/-! ### Version cache theorems -/

/-- A non-empty string is not falsy. -/
theorem strIsEmpty_eq_false {s : String} (h : s ≠ "") : strIsEmpty s = false := by
  unfold strIsEmpty
  cases s with
  | mk data =>
    cases data with
    | nil => exact absurd rfl h
    | cons c cs => rfl

/-- A stale refresh takes the warm branch or the cold branch according to
the warm-cache condition. -/
theorem get_available_versions_not_fresh (c : VersionCache) (now : Nat)
    (o : FetchOutcome) (hstale : cacheFresh c now = false) :
    get_available_versions c now o =
      if (!c.versions.isEmpty && newestTruthy c) = true then
        (refreshWarm c now (c.newest.getD "") o,
         (refreshWarm c now (c.newest.getD "") o).versions)
      else (refreshCold c now o, (refreshCold c now o).versions) := by
  unfold get_available_versions
  by_cases hw : (!c.versions.isEmpty && newestTruthy c) = true <;>
    simp [hstale, hw]

/-- A stale refresh over a warm cache is the incremental branch. -/
theorem get_available_versions_warm (c : VersionCache) (now : Nat)
    (o : FetchOutcome) (hstale : cacheFresh c now = false)
    (hne : c.versions ≠ []) {kn : String} (hnewest : c.newest = some kn)
    (hkn : kn ≠ "") :
    get_available_versions c now o =
      (refreshWarm c now kn o, (refreshWarm c now kn o).versions) := by
  have hne' : c.versions.isEmpty = false := by
    cases h : c.versions with
    | nil => exact absurd h hne
    | cons a l => rfl
  have htruthy : newestTruthy c = true := by
    unfold newestTruthy
    rw [hnewest]
    simp [strIsEmpty_eq_false hkn]
  rw [get_available_versions_not_fresh c now o hstale]
  simp [hne', htruthy, hnewest]

/-- C2.  Over a stale warm cache: the literal page-1 response
`["1.87.0", "1.86.1", "1.86.0", "1.85.0"]` against `newest = "1.86.0"`
prepends `["1.87.0", "1.86.1"]` and moves `newest` to `"1.87.0"`; and any
page-1 response whose first element equals the cached `newest` leaves
`versions` unchanged while still advancing `last_check` to now. -/
theorem get_available_versions_incremental (c : VersionCache) (now : Nat)
    (hstale : cacheFresh c now = false) (hwarm : c.versions ≠ []) :
    (c.newest = some "1.86.0" →
      (get_available_versions c now
          (.ok ["1.87.0", "1.86.1", "1.86.0", "1.85.0"])).1.versions
        = ["1.87.0", "1.86.1"] ++ c.versions
      ∧ (get_available_versions c now
          (.ok ["1.87.0", "1.86.1", "1.86.0", "1.85.0"])).1.newest
        = some "1.87.0")
  ∧ (∀ (kn : String) (page1 : List String), c.newest = some kn → kn ≠ "" →
      page1.head? = some kn →
      (get_available_versions c now (.ok page1)).1.versions = c.versions
      ∧ (get_available_versions c now (.ok page1)).1.last_check = some now) := by
  constructor
  · intro hnewest
    rw [get_available_versions_warm c now _ hstale hwarm hnewest (by decide)]
    have hfetch : fetch_new_releases "1.86.0"
        (.ok ["1.87.0", "1.86.1", "1.86.0", "1.85.0"])
        = some ["1.87.0", "1.86.1"] := by decide
    rw [refreshWarm, hfetch]
    exact ⟨rfl, rfl⟩
  · intro kn page1 hnewest hkn hhead
    rw [get_available_versions_warm c now _ hstale hwarm hnewest hkn]
    have htake : page1.takeWhile (fun v => v != kn) = [] := by
      cases page1 with
      | nil => rfl
      | cons a t =>
        have ha : a = kn := by simpa using hhead
        subst ha
        simp [List.takeWhile]
    rw [refreshWarm]
    simp only [fetch_new_releases, fetch_page, Option.map_some', htake]
    constructor <;> trivial

/-- A warm cache one TTL past its last check, holding the single release
`1.86.0`. -/
def warmStaleCache : VersionCache := ⟨["1.86.0"], some 0, some "1.86.0"⟩

/-- C2 (witness). -/
theorem get_available_versions_incremental_witness :
    (get_available_versions warmStaleCache 1000000
        (.ok ["1.87.0", "1.86.1", "1.86.0", "1.85.0"])).1.versions
      = ["1.87.0", "1.86.1"] ++ warmStaleCache.versions :=
  ((get_available_versions_incremental warmStaleCache 1000000 (by decide)
      (by decide)).1 rfl).1

/-- C3 (counterexample).  A non-200 upstream response is a failure of the
release feed, yet the refresh advances `last_check` (stamping the stale
data fresh instead of retrying on the next call). -/
theorem refresh_error_lastcheck_cex :
    (get_available_versions warmStaleCache 1000000 .httpError).1.last_check
        = some 1000000
  ∧ warmStaleCache.last_check = some 0
  ∧ (some 1000000 : Option Nat) ≠ some 0 := by decide

/-- C3 (amended).  When the upstream fetch raises a transport exception,
the whole cache (including `last_check`) is unchanged and the previous
versions list is still returned; when the upstream answers with a non-200
status, `versions` and `newest` are unchanged and the stale list is still
returned, but `last_check` does advance to now. -/
theorem refresh_upstream_error (c : VersionCache) (now : Nat)
    (hstale : cacheFresh c now = false) :
    get_available_versions c now .raised = (c, c.versions)
  ∧ (∀ kn : String, c.versions ≠ [] → c.newest = some kn → kn ≠ "" →
      (get_available_versions c now .httpError).1.versions = c.versions
      ∧ (get_available_versions c now .httpError).1.newest = c.newest
      ∧ (get_available_versions c now .httpError).1.last_check = some now
      ∧ (get_available_versions c now .httpError).2 = c.versions) := by
  constructor
  · rw [get_available_versions_not_fresh c now _ hstale]
    by_cases hw : (!c.versions.isEmpty && newestTruthy c) = true
    · simp [hw, refreshWarm, fetch_new_releases, fetch_page]
    · simp [hw, refreshCold, fetch_all_releases, fetch_page]
  · intro kn hne hnewest hkn
    rw [get_available_versions_warm c now _ hstale hne hnewest hkn]
    simp [refreshWarm, fetch_new_releases, fetch_page]

/-- C3 (witness for the amended theorem). -/
theorem refresh_upstream_error_witness :
    get_available_versions warmStaleCache 1000000 .raised
      = (warmStaleCache, warmStaleCache.versions)
  ∧ (get_available_versions warmStaleCache 1000000 .httpError).1.versions
      = warmStaleCache.versions :=
  ⟨(refresh_upstream_error warmStaleCache 1000000 (by decide)).1,
   ((refresh_upstream_error warmStaleCache 1000000 (by decide)).2 "1.86.0"
      (by decide) rfl (by decide)).1⟩

/-- A warm stale cache holding two releases, satisfying the cache
invariant. -/
def dupProneCache : VersionCache := ⟨["1.86.0", "1.85.0"], some 0, some "1.86.0"⟩

/-- C4 (counterexample).  The invariant-satisfying cache knows
`["1.86.0", "1.85.0"]`; a page-1 feed reading `["1.87.0", "1.85.0"]`
(no occurrence of the cached `newest`) makes the incremental refresh
prepend both entries, duplicating `"1.85.0"`: the no-duplicates invariant
is not preserved. -/
theorem refresh_nodup_cex :
    cacheInv dupProneCache
  ∧ ¬ ((get_available_versions dupProneCache 1000000
        (.ok ["1.87.0", "1.85.0"])).1.versions).Nodup := by decide

/-- C4 (amended).  A refresh always preserves `versions[0] = newest`; an
incremental refresh only prepends (the old list stays a suffix, unchanged
and unreordered); and the no-duplicates invariant is preserved provided
the newly collected page-1 entries are themselves distinct and none of
them is already cached. -/
theorem refresh_cache_invariant (c : VersionCache) (now : Nat)
    (o : FetchOutcome) (hinv : cacheInv c) :
    ((get_available_versions c now o).1.versions ≠ [] →
      (get_available_versions c now o).1.newest
        = (get_available_versions c now o).1.versions.head?)
  ∧ (c.versions ≠ [] → newestTruthy c = true →
      ∃ l, (get_available_versions c now o).1.versions = l ++ c.versions)
  ∧ (∀ (kn : String) (page1 : List String), c.versions ≠ [] →
      c.newest = some kn → kn ≠ "" → o = .ok page1 →
      (page1.takeWhile (fun v => v != kn)).Nodup →
      (∀ v ∈ page1.takeWhile (fun v => v != kn), v ∉ c.versions) →
      (get_available_versions c now o).1.versions.Nodup) := by
  by_cases hfresh : cacheFresh c now = true
  · have heq : get_available_versions c now o = (c, c.versions) := by
      unfold get_available_versions
      rw [if_pos hfresh]
    rw [heq]
    refine ⟨hinv.1, fun _ _ => ⟨[], rfl⟩, fun _ _ _ _ _ _ _ _ => hinv.2⟩
  · have hstale : cacheFresh c now = false := by
      simpa using hfresh
    by_cases hw : (!c.versions.isEmpty && newestTruthy c) = true
    · have hne : c.versions ≠ [] := by
        intro h
        rw [h] at hw
        simp at hw
      have htruthy : newestTruthy c = true := by
        simp only [Bool.and_eq_true] at hw
        exact hw.2
      obtain ⟨kn, hknewest⟩ : ∃ kn, c.newest = some kn := by
        unfold newestTruthy at htruthy
        cases h : c.newest with
        | none => rw [h] at htruthy; cases htruthy
        | some s => exact ⟨s, rfl⟩
      have hkn : kn ≠ "" := by
        unfold newestTruthy at htruthy
        rw [hknewest] at htruthy
        intro h
        subst h
        cases htruthy
      have heq := get_available_versions_warm c now o hstale hne hknewest hkn
      rw [heq]
      cases o with
      | raised =>
        refine ⟨hinv.1, fun _ _ => ⟨[], rfl⟩, fun _ _ _ _ _ h _ _ => by cases h⟩
      | httpError =>
        have hrw : refreshWarm c now kn .httpError
            = { versions := c.versions, last_check := some now,
                newest := c.newest } := rfl
        rw [hrw]
        exact ⟨hinv.1, fun _ _ => ⟨[], rfl⟩, fun _ _ _ _ _ h _ _ => by cases h⟩
      | ok page =>
        cases htake : page.takeWhile (fun v => v != kn) with
        | nil =>
          have hrw : refreshWarm c now kn (.ok page)
              = { versions := c.versions, last_check := some now,
                  newest := c.newest } := by
            rw [refreshWarm]
            simp only [fetch_new_releases, fetch_page, Option.map_some', htake]
          rw [hrw]
          refine ⟨hinv.1, fun _ _ => ⟨[], rfl⟩, ?_⟩
          intro kn' page1 _ hnewest' _ ho _ _
          exact hinv.2
        | cons v vs =>
          have hrw : refreshWarm c now kn (.ok page)
              = { versions := (v :: vs) ++ c.versions, last_check := some now,
                  newest := some v } := by
            rw [refreshWarm]
            simp only [fetch_new_releases, fetch_page, Option.map_some', htake]
          rw [hrw]
          refine ⟨fun _ => rfl, fun _ _ => ⟨v :: vs, rfl⟩, ?_⟩
          intro kn' page1 _ hnewest' _ ho hnodup hdisj
          have hkn' : kn' = kn := by
            rw [hknewest] at hnewest'
            exact (Option.some_inj.mp hnewest').symm
          have hpage : page1 = page := by
            cases ho
            rfl
          subst hkn' hpage
          rw [htake] at hnodup hdisj
          exact List.Nodup.append hnodup hinv.2 (List.disjoint_left.mpr hdisj)
    · have heq : get_available_versions c now o
          = (refreshCold c now o, (refreshCold c now o).versions) := by
        rw [get_available_versions_not_fresh c now o hstale, if_neg hw]
      rw [heq]
      refine ⟨?_, ?_, ?_⟩
      · cases o with
        | raised => exact hinv.1
        | httpError => intro _; rfl
        | ok vs => intro _; rfl
      · intro hne htruthy
        have : (!c.versions.isEmpty && newestTruthy c) = true := by
          have hne' : c.versions.isEmpty = false := by
            cases h : c.versions with
            | nil => exact absurd h hne
            | cons a l => rfl
          rw [hne', htruthy]
          rfl
        exact absurd this hw
      · intro kn page1 hne hnewest hkn _ _ _
        have htruthy : newestTruthy c = true := by
          unfold newestTruthy
          rw [hnewest]
          simp [strIsEmpty_eq_false hkn]
        have hne' : c.versions.isEmpty = false := by
          cases h : c.versions with
          | nil => exact absurd h hne
          | cons a l => rfl
        exact absurd (by rw [hne', htruthy]; rfl) hw

/-- C4 (witness for the amended theorem). -/
theorem refresh_cache_invariant_witness :
    (get_available_versions warmStaleCache 1000000 (.ok ["1.87.0"])).1.versions.Nodup :=
  (refresh_cache_invariant warmStaleCache 1000000 (.ok ["1.87.0"])
      (by decide)).2.2 "1.86.0" ["1.87.0"] (by decide) rfl (by decide) rfl
      (by decide) (by decide)

/-! ### Memory parsing and resource estimation theorems -/

/-- C7 (counterexample).  `"xMi"` matches no quantity format, yet
`parse_k8s_memory` does not return 0: the matched `Mi` suffix routes the
non-numeric remainder `"x"` into `float`, whose `ValueError` is not
caught (only the suffix-less `int` fallback is wrapped in `try`), so the
call raises (`none`) instead of returning 0. -/
theorem parse_k8s_memory_raises_cex :
    parse_k8s_memory "xMi" = none ∧ (none : Option Int) ≠ some 0 := by decide

/-- C7 (amended).  The three concrete quantities parse to the claimed
byte counts, and every string that ends in no recognized unit suffix is
total: it parses to some integer (0 when it is not a digit string) and
never raises.  Strings that do carry a recognized suffix but whose
numeric part is malformed raise instead (see the counterexample). -/
theorem parse_k8s_memory_spec :
    parse_k8s_memory "512Mi" = some 536870912
  ∧ parse_k8s_memory "1Gi" = some 1073741824
  ∧ parse_k8s_memory "2G" = some 2000000000
  ∧ ∀ s : String, multipliers.find? (fun sm => strEndsWith s sm.1) = none →
      ∃ n : Int, parse_k8s_memory s = some n := by
  refine ⟨by decide, by decide, by decide, ?_⟩
  intro s h
  by_cases hs : strIsEmpty s = true
  · refine ⟨0, ?_⟩
    unfold parse_k8s_memory
    rw [if_pos hs]
  · by_cases hd : isDigits s = true
    · refine ⟨(digitsVal s.data : Int), ?_⟩
      unfold parse_k8s_memory
      simp [hs, h, hd]
    · refine ⟨0, ?_⟩
      unfold parse_k8s_memory
      simp [hs, h, hd]

/-- C7 (witness for the amended theorem). -/
theorem parse_k8s_memory_spec_witness :
    ∃ n : Int, parse_k8s_memory "hello" = some n :=
  parse_k8s_memory_spec.2.2.2 "hello" (by decide)

/-- C8 (counterexample).  With 3 Mi allocatable and 2 Mi used, the code
reports 66 percent — the truncation of 200/3 — while rounding 200/3 to
the nearest integer gives 67. -/
theorem utilization_round_cex :
    (cluster_resources (3 * 1048576) (2 * 1048576)).1.utilization_percent = 66
  ∧ round_percent_spec 3 2 = 67
  ∧ (66 : Nat) ≠ 67 := by
  refine ⟨?_, ?_, by decide⟩
  · show utilization_percent 3 2 = 66
    unfold utilization_percent
    rw [if_pos (by norm_num)]
    rw [show ((2 : Nat) : ℚ) / ((3 : Nat) : ℚ) * 100
        = ((200 : Nat) : ℚ) / ((3 : Nat) : ℚ) by push_cast; ring]
    rw [Nat.floor_div_eq_div]
  · unfold round_percent_spec
    rw [if_pos (by norm_num)]
    rw [show ((2 : Nat) : ℚ) / ((3 : Nat) : ℚ) * 100 + 1 / 2
        = ((403 : Nat) : ℚ) / ((6 : Nat) : ℚ) by push_cast; ring]
    rw [Nat.floor_div_eq_div]

/-- C8 (amended).  The reported utilization percent is the truncation
`used_mi * 100 / allocatable_mi` (floor of the float quotient), and 0
when the allocatable amount is 0 — the zero divisor is never used. -/
theorem utilization_percent_trunc (allocatable_mi used_mi : Nat) :
    (utilization_percent allocatable_mi used_mi
        = if allocatable_mi = 0 then 0 else used_mi * 100 / allocatable_mi)
  ∧ (cluster_resources (allocatable_mi * 1048576)
        (used_mi * 1048576)).1.utilization_percent
      = utilization_percent allocatable_mi used_mi := by
  constructor
  · by_cases h : allocatable_mi = 0
    · subst h
      unfold utilization_percent
      simp
    · have hpos : 0 < allocatable_mi := Nat.pos_of_ne_zero h
      unfold utilization_percent
      rw [if_pos hpos, if_neg h]
      rw [show ((used_mi : Nat) : ℚ) / ((allocatable_mi : Nat) : ℚ) * 100
          = ((used_mi * 100 : Nat) : ℚ) / ((allocatable_mi : Nat) : ℚ) by
        push_cast; ring]
      rw [Nat.floor_div_eq_div]
  · show utilization_percent (allocatable_mi * 1048576 / (1024 * 1024))
        (used_mi * 1048576 / (1024 * 1024)) = _
    rw [show (1024 * 1024 : Nat) = 1048576 by norm_num,
      Nat.mul_div_cancel allocatable_mi (by norm_num : 0 < 1048576),
      Nat.mul_div_cancel used_mi (by norm_num : 0 < 1048576)]

/-- C9.  With 4096 Mi allocatable and 2500 Mi used, the estimate reports
1596 Mi available, queue mode infeasible and regular mode feasible; in
general queue mode is feasible exactly when at least 1792 Mi are
available and regular mode exactly when at least 512 Mi are. -/
theorem can_deploy_thresholds :
    ((cluster_resources (4096 * 1048576) (2500 * 1048576)).1.available_mi = 1596
      ∧ (cluster_resources (4096 * 1048576) (2500 * 1048576)).2.queue_mode = false
      ∧ (cluster_resources (4096 * 1048576) (2500 * 1048576)).2.regular_mode = true)
  ∧ ∀ total_memory used_memory : Nat,
      ((cluster_resources total_memory used_memory).2.queue_mode = true
        ↔ (cluster_resources total_memory used_memory).1.available_mi
            ≥ (QUEUE_MODE_MEMORY : Int))
    ∧ ((cluster_resources total_memory used_memory).2.regular_mode = true
        ↔ (cluster_resources total_memory used_memory).1.available_mi
            ≥ (REGULAR_MODE_MEMORY : Int)) := by
  refine ⟨by decide, ?_⟩
  intro total_memory used_memory
  constructor <;> simp [cluster_resources]

end N8nMgr
